import Mathlib

/-!
# GreenScore — verification of the classification-and-estimation fusion pipeline

Shallow embedding of the core pipeline of the GreenScore repository:

* `carbon_calculator.py` — the Local Emission Calculator (`CarbonCalculator`),
* `ai_transaction_parser.py` — the multi-signal classifier (`AITransactionParser`),
* `enhanced_carbon_calculator.py` — the estimator / fusion (`EnhancedCarbonCalculator`),
* `carbon_api_integrator.py` — provider integration and batching (`CarbonAPIIntegrator`).

Python floats are modelled as rationals (`ℚ`), Python dicts as insertion-ordered
association lists, exceptions as `Except Unit`, and the opaque external
capabilities (spaCy NER, the zero-shot text classifier, the carbon-estimation
HTTP providers) as function parameters, so that the pipeline becomes a pure
function of its input plus the capability outcomes.
-/

-- The Batteries rational operations are `@[irreducible]`; restore reducibility so
-- concrete pipeline runs can be evaluated by `decide`.
set_option allowUnsafeReducibility true in
attribute [semireducible] Rat.add Rat.mul Rat.inv Rat.sub Rat.neg Rat.div

namespace GreenScore

/-! ## String helpers

Python string primitives used by the source (`in`, `.lower()`, `.strip()`,
`.startswith`), implemented over `List Char` so they reduce in the kernel. -/

/-- `listIsPfx needle hay` — `needle` is a prefix of `hay` (char lists). -/
def listIsPfx : List Char → List Char → Bool
  | [], _ => true
  | _ :: _, [] => false
  | a :: as, b :: bs => a == b && listIsPfx as bs

/-- Occurrence of `needle` somewhere in `hay`; models Python `needle in hay`. -/
def listOccurs (needle : List Char) : List Char → Bool
  | [] => needle.isEmpty
  | c :: rest => listIsPfx needle (c :: rest) || listOccurs needle rest

/-- Python `needle in hay` on strings. -/
def strContains (hay needle : String) : Bool :=
  listOccurs needle.data hay.data

/-- Python `s.lower()` (ASCII, which is all the pipeline's tables use). -/
def lowerStr (s : String) : String :=
  String.mk (s.data.map Char.toLower)

/-- Python `s.strip()`. -/
def stripStr (s : String) : String :=
  String.mk (((s.data.dropWhile Char.isWhitespace).reverse.dropWhile Char.isWhitespace).reverse)

/-- Lookup in an insertion-ordered association list; models Python `d.get(k)`. -/
def alookup {α : Type} (l : List (String × α)) (k : String) : Option α :=
  (l.find? (fun p => p.1 = k)).map (·.2)

/-- Python `max(xs, key=f)` for a nonempty list: the first element attaining the
maximum, found by a left fold that replaces the best only on a strictly
larger key. -/
def firstMaxBy {α : Type} (f : α → ℚ) : List α → Option α
  | [] => none
  | x :: xs => some (xs.foldl (fun best y => if f best < f y then y else best) x)

/-! ## `carbon_calculator.py` — Local Emission Calculator -/

/-- `CarbonCalculator.emission_factors` (kg CO2e per unit), verbatim. -/
def emission_factors : List (String × List (String × ℚ)) :=
  [("Transportation",
    [("gasoline_car", 404/1000), ("diesel_car", 463/1000), ("hybrid_car", 200/1000),
     ("electric_car", 180/1000), ("motorcycle", 280/1000), ("bus", 80/1000),
     ("train", 60/1000), ("subway", 40/1000), ("taxi", 500/1000), ("uber_lyft", 520/1000),
     ("flight_domestic", 255/1000), ("flight_international", 195/1000), ("default", 404/1000)]),
   ("Energy",
    [("electricity_us_avg", 1/2), ("electricity_coal", 82/100), ("electricity_natural_gas", 35/100),
     ("electricity_renewable", 2/100), ("natural_gas_heating", 185/1000), ("heating_oil", 264/1000),
     ("propane", 215/1000), ("default", 1/2)]),
   ("Food",
    [("beef", 60), ("lamb", 392/10), ("pork", 121/10), ("chicken", 69/10),
     ("fish_farmed", 54/10), ("fish_wild", 29/10), ("dairy_milk", 32/10), ("cheese", 135/10),
     ("eggs", 42/10), ("rice", 27/10), ("wheat_bread", 9/10), ("vegetables_avg", 4/10),
     ("fruits_avg", 3/10), ("nuts", 3/10), ("legumes", 4/10), ("tofu", 2),
     ("plant_milk", 9/10), ("default", 25/10)]),
   ("Shopping",
    [("clothing_fast_fashion", 8/10), ("clothing_sustainable", 3/10), ("electronics", 12/10),
     ("furniture", 6/10), ("books_paper", 2/10), ("books_digital", 1/100),
     ("cosmetics", 4/10), ("household_items", 5/10), ("default", 5/10)]),
   ("Entertainment",
    [("streaming_video", 36/10000), ("gaming", 12/1000), ("movie_theater", 15/100),
     ("concert", 25/100), ("sports_event", 30/100), ("default", 2/10)]),
   ("Other", [("default", 3/10)])]

/-- `CarbonCalculator.conversions['miles_to_km']`. -/
def miles_to_km : ℚ := 160934/100000

/-- `CarbonCalculator.conversions['lbs_to_kg']`. -/
def lbs_to_kg : ℚ := 453592/1000000

/-- The `additional_data` dict of `calculate_footprint` (only the keys the
source reads; an absent key makes the corresponding `.get` default apply). -/
structure AddData where
  mpg : Option ℚ
  gas_price : Option ℚ
  kwh_per_dollar : Option ℚ
  grid_carbon_intensity : Option ℚ
  deriving Repr, DecidableEq

/-- The empty `additional_data` dict (the default `additional_data=None`). -/
def AddData.empty : AddData := ⟨none, none, none, none⟩

/-- `CarbonCalculator._calculate_transportation`. -/
def calculate_transportation (subcategory : String) (amount : ℚ) (unit : String)
    (factor : ℚ) (ad : AddData) : ℚ :=
  if unit = "miles" then amount * factor
  else if unit = "km" then amount * factor / miles_to_km
  else if unit = "gallons" then amount * (ad.mpg.getD 25) * factor
  else if unit = "dollar" then
    if strContains (lowerStr subcategory) "gas" || strContains (lowerStr subcategory) "fuel" then
      amount / (ad.gas_price.getD (7/2)) * (ad.mpg.getD 25) * factor
    else
      amount / (5/2) * factor
  else amount * factor

/-- `CarbonCalculator._calculate_energy`. -/
def calculate_energy (amount : ℚ) (unit : String) (factor : ℚ) (ad : AddData) : ℚ :=
  if unit = "kwh" then amount * (ad.grid_carbon_intensity.getD factor)
  else if unit = "dollar" then amount * (ad.kwh_per_dollar.getD (17/2)) * factor
  else if unit = "therms" then amount * (53/10)
  else amount * factor

/-- `serving_weights` table inside `CarbonCalculator._calculate_food`. -/
def serving_weights : List (String × ℚ) :=
  [("beef", 113/1000), ("chicken", 85/1000), ("fish", 85/1000),
   ("vegetables", 80/1000), ("rice", 45/1000), ("default", 100/1000)]

/-- `CarbonCalculator._calculate_food`. -/
def calculate_food (subcategory : String) (amount : ℚ) (unit : String) (factor : ℚ) : ℚ :=
  if unit = "kg" then amount * factor
  else if unit = "lbs" then amount * lbs_to_kg * factor
  else if unit = "servings" then
    amount * ((alookup serving_weights (lowerStr subcategory)).getD (100/1000)) * factor
  else if unit = "dollar" then
    (if lowerStr subcategory = "beef" ∨ lowerStr subcategory = "lamb" then amount / 15
     else if lowerStr subcategory = "chicken" ∨ lowerStr subcategory = "pork" then amount / 8
     else if lowerStr subcategory = "vegetables" ∨ lowerStr subcategory = "fruits" then amount / 4
     else amount / 6) * factor
  else amount * factor

/-- `CarbonCalculator._apply_unit_conversion`. -/
def apply_unit_conversion (category subcategory : String) (amount : ℚ) (unit : String)
    (factor : ℚ) (ad : AddData) : ℚ :=
  if category = "Transportation" then calculate_transportation subcategory amount unit factor ad
  else if category = "Energy" then calculate_energy amount unit factor ad
  else if category = "Food" then calculate_food subcategory amount unit factor
  else amount * factor

/-- `CarbonCalculator.calculate_footprint`: factor lookup with the two fallback
levels, unit conversion, and the final clamp `max(0, carbon_kg)`. -/
def calculate_footprint (category subcategory : String) (amount : ℚ)
    (unit : String) (ad : AddData) : ℚ :=
  let category_factors := (alookup emission_factors category).getD [("default", 3/10)]
  let factor :=
    if subcategory ≠ "" ∧ (alookup category_factors (lowerStr subcategory)).isSome then
      (alookup category_factors (lowerStr subcategory)).getD 0
    else (alookup category_factors "default").getD 0
  max 0 (apply_unit_conversion category subcategory amount unit factor ad)

/-! ### C10 — the Local Emission Calculator is total, falls back, and clamps -/

/-- C10: `CarbonCalculator.calculate_footprint` is a total function of
(category, subcategory, amount, unit, additional_data) — in this embedding it
terminates and raises nothing by construction — its result is always
non-negative (the `max(0, carbon_kg)` clamp), a category absent from
`emission_factors` falls back to the global default factor 0.3, and a known
category with a subcategory absent from its table falls back to that
category's `default` factor. -/
theorem calculate_footprint_fallbacks_and_nonneg
    (category subcategory : String) (amount : ℚ) (unit : String) (ad : AddData) :
    0 ≤ calculate_footprint category subcategory amount unit ad
    ∧ (alookup emission_factors category = none →
        calculate_footprint category subcategory amount unit ad
          = max 0 (apply_unit_conversion category subcategory amount unit (3/10) ad))
    ∧ (∀ cf, alookup emission_factors category = some cf →
        alookup cf (lowerStr subcategory) = none →
        calculate_footprint category subcategory amount unit ad
          = max 0 (apply_unit_conversion category subcategory amount unit
              ((alookup cf "default").getD 0) ad)) := by
  refine ⟨le_max_left 0 _, ?_, ?_⟩
  · intro hnone
    simp only [calculate_footprint, hnone, Option.getD_none]
    by_cases hd : ("default" : String) = lowerStr subcategory
    · by_cases hs : subcategory ≠ ""
      · rw [if_pos ⟨hs, by simp [alookup, List.find?, ← hd]⟩]
        simp [alookup, List.find?, ← hd]
      · rw [if_neg (fun h => hs h.1)]
        simp [alookup, List.find?]
    · have hlook : alookup [(("default" : String), (3/10 : ℚ))] (lowerStr subcategory) = none := by
        simp [alookup, List.find?, hd]
      rw [if_neg (fun h => by rw [hlook] at h; exact absurd h.2 (by simp))]
      simp [alookup, List.find?]
  · intro cf hcf hsub
    simp only [calculate_footprint, hcf, Option.getD_some]
    rw [if_neg (fun h => by rw [hsub] at h; exact absurd h.2 (by simp))]

theorem calculate_footprint_fallbacks_witness :
    alookup emission_factors "UnknownCat" = none
    ∧ calculate_footprint "UnknownCat" "zzz" 7 "dollar" AddData.empty
        = max 0 (apply_unit_conversion "UnknownCat" "zzz" 7 "dollar" (3/10) AddData.empty)
    ∧ calculate_footprint "UnknownCat" "zzz" 7 "dollar" AddData.empty = 21/10 :=
  ⟨by decide,
   (calculate_footprint_fallbacks_and_nonneg "UnknownCat" "zzz" 7 "dollar" AddData.empty).2.1
     (by decide),
   by decide⟩

/-! ## `enhanced_carbon_calculator.py` — estimate fusion -/

/-- One entry of the `estimates` dict handed to
`EnhancedCarbonCalculator._calculate_weighted_estimate` (the dict key — the
source identifier the weights are keyed on — is kept alongside as the first
component of a pair). -/
structure EstimateEntry where
  carbon_kg : ℚ
  confidence : ℚ
  source : String
  method : String
  deriving Repr, DecidableEq

/-- The `source_weights` table of `_calculate_weighted_estimate`, including the
`.get(source, 0.5)` default for keys that are not in the table. -/
def source_weights (s : String) : ℚ :=
  if s = "api_carbon_interface" then 1
  else if s = "api_climatiq" then 95/100
  else if s = "api_cloverly" then 90/100
  else if s = "industry_specific" then 85/100
  else if s = "local" then 80/100
  else 1/2

/-- `final_weight = base_weight * confidence_weight` for one estimate. -/
def estWeight (p : String × EstimateEntry) : ℚ :=
  source_weights p.1 * p.2.confidence

/-- The `weighted_sum` accumulator of `_calculate_weighted_estimate`. -/
def weightedSum (es : List (String × EstimateEntry)) : ℚ :=
  (es.map (fun p => p.2.carbon_kg * estWeight p)).sum

/-- The `total_weight` accumulator of `_calculate_weighted_estimate`. -/
def totalWeight (es : List (String × EstimateEntry)) : ℚ :=
  (es.map estWeight).sum

/-- The dict returned by `_calculate_weighted_estimate`. -/
structure FinalEstimate where
  carbon_kg : ℚ
  confidence : ℚ
  method : String
  primary_source : Option String
  total_weight : ℚ
  deriving Repr, DecidableEq

/-- `EnhancedCarbonCalculator._calculate_weighted_estimate`: empty-input and
zero-weight guard branches, weighted average, confidence `min(Σw/n, 1)`, and
the `max(methods_used, key=weight)` primary source. -/
def calculate_weighted_estimate (estimates : List (String × EstimateEntry)) : FinalEstimate :=
  if estimates = [] then ⟨0, 0, "No estimates available", none, 0⟩
  else
    let tw := totalWeight estimates
    if tw = 0 then ⟨0, 0, "No valid estimates", none, 0⟩
    else
      let primary := firstMaxBy estWeight estimates
      ⟨weightedSum estimates / tw,
       min (tw / (estimates.length : ℚ)) 1,
       "Weighted average (primary: " ++ ((primary.map (·.1)).getD "") ++ ")",
       primary.map (·.1),
       tw⟩

/-! ### Helper lemmas for the fold implementing Python `max(xs, key=f)` -/

theorem foldlMax_mem {α : Type} (f : α → ℚ) (l : List α) (b : α) :
    l.foldl (fun best y => if f best < f y then y else best) b = b ∨
    l.foldl (fun best y => if f best < f y then y else best) b ∈ l := by
  induction l generalizing b with
  | nil => exact Or.inl rfl
  | cons x xs ih =>
    simp only [List.foldl_cons]
    rcases ih (if f b < f x then x else b) with h | h
    · rw [h]
      by_cases hc : f b < f x
      · rw [if_pos hc]
        exact Or.inr (List.mem_cons_self x xs)
      · rw [if_neg hc]
        exact Or.inl rfl
    · exact Or.inr (List.mem_cons_of_mem _ h)

theorem foldlMax_le {α : Type} (f : α → ℚ) (l : List α) (b : α) :
    f b ≤ f (l.foldl (fun best y => if f best < f y then y else best) b) ∧
    ∀ y ∈ l, f y ≤ f (l.foldl (fun best y => if f best < f y then y else best) b) := by
  induction l generalizing b with
  | nil => exact ⟨le_refl _, by simp⟩
  | cons x xs ih =>
    simp only [List.foldl_cons]
    obtain ⟨ih1, ih2⟩ := ih (if f b < f x then x else b)
    have hb : f b ≤ f (if f b < f x then x else b) := by
      by_cases hc : f b < f x
      · simpa [if_pos hc] using le_of_lt hc
      · simp [if_neg hc]
    have hx : f x ≤ f (if f b < f x then x else b) := by
      by_cases hc : f b < f x
      · simp [if_pos hc]
      · simpa [if_neg hc] using le_of_not_lt hc
    refine ⟨le_trans hb ih1, ?_⟩
    intro y hy
    rcases List.mem_cons.mp hy with rfl | hy
    · exact le_trans hx ih1
    · exact ih2 y hy

theorem firstMaxBy_spec {α : Type} (f : α → ℚ) (l : List α) (x : α)
    (h : firstMaxBy f l = some x) : x ∈ l ∧ ∀ y ∈ l, f y ≤ f x := by
  match l, h with
  | a :: as, h =>
    simp only [firstMaxBy, Option.some.injEq] at h
    subst h
    constructor
    · rcases foldlMax_mem f as a with h | h
      · rw [h]; exact List.mem_cons_self a as
      · exact List.mem_cons_of_mem _ h
    · intro y hy
      obtain ⟨h1, h2⟩ := foldlMax_le f as a
      rcases List.mem_cons.mp hy with rfl | hy
      · exact h1
      · exact h2 y hy

theorem firstMaxBy_some {α : Type} (f : α → ℚ) (a : α) (as : List α) :
    ∃ x, firstMaxBy f (a :: as) = some x := ⟨_, rfl⟩

/-! ### C1 — fusion formula refinement against the spec's §4.4 table -/

/-- Modelled from the spec: the §4.4 `source_reliability` table, with the
spec's role names resolved to the estimate keys the code produces
("api primary" = the Carbon Interface estimate key, "api secondary" = the
Climatiq estimate key). -/
def specReliability (s : String) : ℚ :=
  if s = "api_carbon_interface" then 1
  else if s = "api_climatiq" then 95/100
  else if s = "industry_specific" then 85/100
  else if s = "local" then 80/100
  else 0

/-- Modelled from the spec: `weight_i = source_reliability[source_i] × confidence_i`. -/
def specWeight (p : String × EstimateEntry) : ℚ :=
  specReliability p.1 * p.2.confidence

theorem estWeight_eq_specWeight (p : String × EstimateEntry)
    (h : p.1 = "api_carbon_interface" ∨ p.1 = "api_climatiq" ∨
         p.1 = "industry_specific" ∨ p.1 = "local") :
    estWeight p = specWeight p := by
  rcases h with h | h | h | h <;>
·    simp [estWeight, specWeight, source_weights, specReliability, h]

/-- C1: for fusion inputs drawn from the spec's four sources (api primary =
carbon interface, api secondary = climatiq, industry, local) with positive
total weight, `_calculate_weighted_estimate` returns exactly the spec's
weighted average `Σ(carbon·w)/Σw` with `w = reliability × confidence`
(reliabilities 1.0, 0.95, 0.85, 0.8), confidence `min(Σw/count, 1)`, and a
method string naming a source of largest single weight. -/
theorem fusion_weighted_average_formula
    (estimates : List (String × EstimateEntry))
    (hsrc : ∀ p ∈ estimates,
      p.1 = "api_carbon_interface" ∨ p.1 = "api_climatiq" ∨
      p.1 = "industry_specific" ∨ p.1 = "local")
    (hW : 0 < (estimates.map specWeight).sum) :
    (calculate_weighted_estimate estimates).carbon_kg
        = (estimates.map (fun p => p.2.carbon_kg * specWeight p)).sum
            / (estimates.map specWeight).sum
    ∧ (calculate_weighted_estimate estimates).confidence
        = min ((estimates.map specWeight).sum / (estimates.length : ℚ)) 1
    ∧ ∃ p ∈ estimates, (∀ q ∈ estimates, specWeight q ≤ specWeight p) ∧
        (calculate_weighted_estimate estimates).method
          = "Weighted average (primary: " ++ p.1 ++ ")" := by
  have hwmap : estimates.map estWeight = estimates.map specWeight :=
    List.map_congr_left (fun p hp => estWeight_eq_specWeight p (hsrc p hp))
  have hcmap : estimates.map (fun p => p.2.carbon_kg * estWeight p)
      = estimates.map (fun p => p.2.carbon_kg * specWeight p) :=
    List.map_congr_left (fun p hp => by rw [estWeight_eq_specWeight p (hsrc p hp)])
  have htw : totalWeight estimates = (estimates.map specWeight).sum := by
    rw [totalWeight, hwmap]
  have hws : weightedSum estimates = (estimates.map (fun p => p.2.carbon_kg * specWeight p)).sum := by
    rw [weightedSum, hcmap]
  have hne : estimates ≠ [] := by
    intro h
    rw [h] at hW
    simp at hW
  have htw0 : totalWeight estimates ≠ 0 := by
    rw [htw]
    exact ne_of_gt hW
  obtain ⟨a, as, rfl⟩ := List.exists_cons_of_ne_nil hne
  obtain ⟨x, hx⟩ := firstMaxBy_some estWeight a as
  obtain ⟨hxmem, hxmax⟩ := firstMaxBy_spec estWeight (a :: as) x hx
  refine ⟨?_, ?_, ?_⟩
  · simp only [calculate_weighted_estimate, if_neg hne, if_neg htw0]
    rw [htw, hws]
  · simp only [calculate_weighted_estimate, if_neg hne, if_neg htw0]
    rw [htw]
  · refine ⟨x, hxmem, ?_, ?_⟩
    · intro q hq
      rw [← estWeight_eq_specWeight q (hsrc q hq), ← estWeight_eq_specWeight x (hsrc x hxmem)]
      exact hxmax q hq
    · simp only [calculate_weighted_estimate, if_neg hne, if_neg htw0]
      rw [hx]
      rfl

/-- Concrete fusion input used to witness C1. -/
def demoEstimates : List (String × EstimateEntry) :=
  [("api_carbon_interface", ⟨100, 9/10, "Carbon Interface", "API"⟩),
   ("local", ⟨80, 7/10, "Local Enhanced Calculator", "EPA/IPCC factors"⟩)]

theorem fusion_weighted_average_formula_witness :
    (0 : ℚ) < (demoEstimates.map specWeight).sum ∧
    (calculate_weighted_estimate demoEstimates).carbon_kg
      = (demoEstimates.map (fun p => p.2.carbon_kg * specWeight p)).sum
          / (demoEstimates.map specWeight).sum :=
  ⟨by decide, (fusion_weighted_average_formula demoEstimates (by decide) (by decide)).1⟩

/-! ### C4 — confidence monotonicity under added estimates -/

/-- C4 counterexample: fusing a single confidence-1.0 Carbon Interface
estimate gives final confidence `min(1.0/1, 1) = 1`; adding a concurring
high-confidence (0.9) industry estimate drops it to
`min((1.0 + 0.765)/2, 1) = 0.8825 < 1`. -/
theorem confidence_monotonicity_counterexample :
    (calculate_weighted_estimate
        [("api_carbon_interface", ⟨10, 1, "Carbon Interface", "API"⟩),
         ("industry_specific", ⟨10, 9/10, "Industry-specific (utility)", "energy_from_cost"⟩)]).confidence
      < (calculate_weighted_estimate
        [("api_carbon_interface", ⟨10, 1, "Carbon Interface", "API"⟩)]).confidence := by
  decide

/-- C4 (amended): adding an estimate whose fusion weight is at least the
current average weight per estimate (`Σw/n`) never decreases
`final_confidence`; a high-confidence estimate below that average can. -/
theorem fusion_confidence_monotone_of_avg_weight_le
    (estimates : List (String × EstimateEntry)) (e : String × EstimateEntry)
    (hne : estimates ≠ [])
    (h : totalWeight estimates / (estimates.length : ℚ) ≤ estWeight e) :
    (calculate_weighted_estimate estimates).confidence
      ≤ (calculate_weighted_estimate (estimates ++ [e])).confidence := by
  have hne' : estimates ++ [e] ≠ [] := by simp
  have hlen : (0 : ℚ) < (estimates.length : ℚ) := by
    have := List.length_pos.mpr hne
    exact_mod_cast this
  have hTW : totalWeight (estimates ++ [e]) = totalWeight estimates + estWeight e := by
    simp [totalWeight]
  have hlen' : ((estimates ++ [e]).length : ℚ) = (estimates.length : ℚ) + 1 := by
    simp
  by_cases h0 : totalWeight estimates = 0
  · by_cases h0' : totalWeight (estimates ++ [e]) = 0
    · simp [calculate_weighted_estimate, hne, hne', h0, h0']
    · simp only [calculate_weighted_estimate, if_neg hne, if_neg hne', if_pos h0, if_neg h0']
      have hw : 0 ≤ estWeight e := by
        rw [h0] at h
        simpa using h
      have : 0 ≤ totalWeight (estimates ++ [e]) / ((estimates ++ [e]).length : ℚ) := by
        apply div_nonneg
        · rw [hTW, h0]; simpa using hw
        · positivity
      exact le_min this (by norm_num)
  · by_cases h0' : totalWeight (estimates ++ [e]) = 0
    · simp only [calculate_weighted_estimate, if_neg hne, if_neg hne', if_neg h0, if_pos h0']
      have hWneg : totalWeight estimates < 0 := by
        rcases lt_or_gt_of_ne h0 with hlt | hgt
        · exact hlt
        · exfalso
          have hw : 0 < estWeight e := lt_of_lt_of_le (div_pos hgt hlen) h
          have : 0 < totalWeight (estimates ++ [e]) := by
            rw [hTW]; positivity
          exact absurd h0' (ne_of_gt this)
      have : totalWeight estimates / (estimates.length : ℚ) < 0 :=
        div_neg_of_neg_of_pos hWneg hlen
      exact le_of_lt (lt_of_le_of_lt (min_le_left _ _) this)
    · simp only [calculate_weighted_estimate, if_neg hne, if_neg hne', if_neg h0, if_neg h0']
      apply min_le_min _ (le_refl 1)
      rw [hTW, hlen']
      rw [div_le_div_iff₀ hlen (by positivity)]
      have hWn : totalWeight estimates ≤ estWeight e * (estimates.length : ℚ) :=
        (div_le_iff₀ hlen).mp h
      nlinarith [hWn]

theorem fusion_confidence_monotone_witness :
    totalWeight [("local", (⟨10, 7/10, "Local Enhanced Calculator", "EPA/IPCC factors"⟩ : EstimateEntry))]
        / ((1 : ℕ) : ℚ)
      ≤ estWeight ("api_carbon_interface", ⟨10, 9/10, "Carbon Interface", "API"⟩) ∧
    (calculate_weighted_estimate
        [("local", ⟨10, 7/10, "Local Enhanced Calculator", "EPA/IPCC factors"⟩)]).confidence
      ≤ (calculate_weighted_estimate
        ([("local", ⟨10, 7/10, "Local Enhanced Calculator", "EPA/IPCC factors"⟩)] ++
          [("api_carbon_interface", ⟨10, 9/10, "Carbon Interface", "API"⟩)])).confidence :=
  ⟨by decide,
   fusion_confidence_monotone_of_avg_weight_le _ _ (by decide) (by decide)⟩

/-! ## Classification data model and the industry-specific calculator -/

/-- The `TransactionClassification` dataclass of `ai_transaction_parser.py`. -/
structure Classification where
  category : String
  subcategory : String
  confidence : ℚ
  carbon_intensity : String
  merchant_type : String
  location : Option String
  deriving Repr, DecidableEq

/-- `EnhancedCarbonCalculator._calculate_industry_specific`: airline / utility /
fuel-station cost→quantity heuristics, confidence 0.85, `None` outside those
industries. -/
def calculate_industry_specific (c : Classification) (amount : ℚ) : Option EstimateEntry :=
  let sub := lowerStr c.subcategory
  let industry : Option String :=
    if c.category = "Transportation" then
      if strContains sub "flight" then some "airline"
      else if strContains sub "gas" || strContains sub "fuel" then some "fuel_station"
      else none
    else if c.category = "Energy" then some "utility"
    else none
  match industry with
  | none => none
  | some ind =>
    let carbon_kg : ℚ :=
      if ind = "airline" then amount / (15/100) * (255/1000)
      else if ind = "utility" then amount / (12/100) * (1/2)
      else amount / (7/2) * (889/100)
    some ⟨carbon_kg, 85/100, "Industry-specific (" ++ ind ++ ")",
          if ind = "airline" then "flight_distance_from_cost"
          else if ind = "utility" then "energy_from_cost"
          else "fuel_volume_from_cost"⟩

/-! ## `_get_multiple_estimates` — the fusion inputs of the single-transaction path -/

/-- A successful provider response (`CarbonEstimate` dataclass of
`carbon_api_integrator.py`; the redundant lb/mt unit fields, the factor map and
the response timestamp are elided). -/
structure ApiEstimate where
  carbon_kg : ℚ
  confidence : ℚ
  source : String
  methodology : String
  deriving Repr, DecidableEq

/-- The `user_preferences` dict (with the `.get(key, True)` defaults already
applied: an absent key behaves as `true`). -/
structure UserPrefs where
  use_carbon_interface : Bool
  use_climatiq : Bool
  deriving Repr, DecidableEq

/-- The `api_tasks` list built in `_get_multiple_estimates` lines 101-126:
providers are scheduled only when `classification.confidence >=
confidence_thresholds['api_secondary'] = 0.6` and only when `user_preferences`
is truthy and enables them (with `user_preferences=None` no task is built). -/
def api_tasks (conf : ℚ) (prefs : Option UserPrefs) : List String :=
  if conf ≥ 3/5 then
    match prefs with
    | none => []
    | some p =>
      (if p.use_carbon_interface then ["carbon_interface"] else []) ++
      (if p.use_climatiq then ["climatiq"] else [])
  else []

/-- The loop over `asyncio.gather(..., return_exceptions=True)` results:
an exceptional outcome is skipped, a successful one is stored under the key
`api_<name>` where the name is read off `['carbon_interface','climatiq'][i]`
by result position (exactly as in the source). The outcome of each scheduled
task is supplied by the capability parameter `outcome`. -/
def api_entries (conf : ℚ) (prefs : Option UserPrefs)
    (outcome : String → Except Unit ApiEstimate) : List (String × EstimateEntry) :=
  (api_tasks conf prefs).enum.filterMap fun ir =>
    match outcome ir.2 with
    | .error _ => none
    | .ok r => some ("api_" ++ (["carbon_interface", "climatiq"].getD ir.1 ""),
                     ⟨r.carbon_kg, r.confidence, r.source, r.methodology⟩)

/-- The unconditional `estimates['local']` entry of `_get_multiple_estimates`. -/
def localEstimateEntry (c : Classification) (amount : ℚ) : String × EstimateEntry :=
  ("local", ⟨calculate_footprint c.category c.subcategory amount "dollar" AddData.empty,
             7/10, "Local Enhanced Calculator", "EPA/IPCC factors"⟩)

/-- The optional `estimates['industry_specific']` entry. -/
def industryEntries (c : Classification) (amount : ℚ) : List (String × EstimateEntry) :=
  match calculate_industry_specific c amount with
  | some e => [("industry_specific", e)]
  | none => []

/-- `EnhancedCarbonCalculator._get_multiple_estimates`: the insertion-ordered
estimates dict — local first (always), then any API entries, then the
industry-specific entry. -/
def get_multiple_estimates (c : Classification) (amount : ℚ)
    (prefs : Option UserPrefs) (outcome : String → Except Unit ApiEstimate) :
    List (String × EstimateEntry) :=
  localEstimateEntry c amount :: (api_entries c.confidence prefs outcome ++ industryEntries c amount)

/-! ## `carbon_api_integrator.py` — batching, grouping and provider fallback -/

/-- A transaction dict as it flows through the batch pipeline; an absent dict
key is `none`.  (The redundant lb/mt fields and `api_timestamp`/`api_factors`
are elided.) -/
structure TxRecord where
  description : String := ""
  amount : ℚ := 0
  date : String := ""
  ai_category : Option String := none
  ai_subcategory : Option String := none
  ai_confidence : Option ℚ := none
  ai_carbon_intensity : Option String := none
  ai_merchant_type : Option String := none
  ai_location : Option String := none
  carbon_kg : Option ℚ := none
  api_carbon_kg : Option ℚ := none
  api_confidence : Option ℚ := none
  api_source : Option String := none
  api_methodology : Option String := none
  final_carbon_kg : Option ℚ := none
  final_confidence : Option ℚ := none
  calculation_method : Option String := none
  processed_at : Option String := none
  deriving Repr, DecidableEq

/-- `CarbonAPIIntegrator._map_category_to_activity_type`. -/
def map_category_to_activity_type (category subcategory : String) : String :=
  if category = "Transportation" ∧ strContains (lowerStr subcategory) "flight" then "flight"
  else if category = "Transportation" ∧
      (strContains (lowerStr subcategory) "gas" || strContains (lowerStr subcategory) "fuel" ||
       strContains (lowerStr subcategory) "gasoline") then "fuel"
  else
    (alookup [("Transportation", "transportation"), ("Energy", "electricity"), ("Food", "food"),
              ("Shopping", "manufacturing"), ("Entertainment", "electricity")] category).getD "other"

/-- The activity type derived for one batch transaction
(`transaction.get('ai_category', 'Other')`, `transaction.get('ai_subcategory', '')`). -/
def txActivityType (t : TxRecord) : String :=
  map_category_to_activity_type (t.ai_category.getD "Other") (t.ai_subcategory.getD "")

/-- One step of the grouping loop of `batch_estimate_transactions`
(`grouped_transactions[activity_type].append((i, transaction))` with Python
dict insertion-order semantics: an existing key keeps its position, a new key
is appended). -/
def addToGroups (gs : List (String × List (ℕ × TxRecord))) (k : String) (p : ℕ × TxRecord) :
    List (String × List (ℕ × TxRecord)) :=
  match gs with
  | [] => [(k, [p])]
  | (k0, l0) :: rest =>
    if k0 = k then (k0, l0 ++ [p]) :: rest else (k0, l0) :: addToGroups rest k p

/-- The grouping loop of `batch_estimate_transactions` lines 485-495: each
transaction is tagged with its original index and filed under its activity
type. -/
def groupByActivity (txs : List TxRecord) : List (String × List (ℕ × TxRecord)) :=
  txs.enum.foldl (fun gs it => addToGroups gs (txActivityType it.2) it) []

/-- The per-item body of the processing loop (lines 507-528): a successful
`get_carbon_estimate` outcome adds the `api_*` keys, the `except` branch
appends the original transaction unchanged.  The outcome oracle takes the
original index so that arbitrary per-item latency/failure patterns are
covered. -/
def estimateItem (api : ℕ → TxRecord → Option ApiEstimate) (it : ℕ × TxRecord) : TxRecord :=
  match api it.1 it.2 with
  | some r =>
    { it.2 with api_carbon_kg := some r.carbon_kg, api_confidence := some r.confidence,
                api_source := some r.source, api_methodology := some r.methodology }
  | none => it.2

/-- `CarbonAPIIntegrator.batch_estimate_transactions`: group by activity type,
process each group member, then `enhanced_transactions.sort(key=lambda x: x[0])`
and strip the index tags. -/
def batch_estimate_transactions (api : ℕ → TxRecord → Option ApiEstimate)
    (txs : List TxRecord) : List TxRecord :=
  (List.insertionSort (fun a b => a.1 ≤ b.1)
    ((groupByActivity txs).flatMap
      (fun g => g.2.map (fun it => (it.1, estimateItem api it))))).map (·.2)

/-- `EnhancedCarbonCalculator.batch_process_transactions`: per-item AI parsing
(`batch_parse_transactions` is an in-order loop), the API batch step, then the
in-order per-item enhancement loop.  The per-item parse and enhancement
functions are parameters; the concrete pipeline instantiates them. -/
def batch_process_transactions (parseItem : TxRecord → TxRecord)
    (api : ℕ → TxRecord → Option ApiEstimate) (enhanceItem : TxRecord → TxRecord)
    (txs : List TxRecord) : List TxRecord :=
  (batch_estimate_transactions api (txs.map parseItem)).map enhanceItem

/-- The `get_carbon_estimate` invocation log of `batch_estimate_transactions`:
one `(original index, activity type)` call per grouped transaction, issued
unconditionally (lines 498-509 contain no confidence check). -/
def batch_call_log (txs : List TxRecord) : List (ℕ × String) :=
  (groupByActivity txs).flatMap (fun g => g.2.map (fun it => (it.1, g.1)))

/-- The fixed provider priority order of `CarbonAPIIntegrator.get_carbon_estimate`. -/
def provider_order : List String := ["carbon_interface", "climatiq", "cloverly", "co2_signal"]

/-- The provider loop of `get_carbon_estimate` (no preferred provider, as in
the batch path): providers are tried in order; the first one that returns an
estimate stops the loop, an exception or a null estimate moves on.  Returns
the list of providers actually queried. -/
def tryProviders (outcome : String → Except Unit (Option ApiEstimate)) :
    List String → List String
  | [] => []
  | p :: ps =>
    match outcome p with
    | .ok (some _) => [p]
    | _ => p :: tryProviders outcome ps

/-- The fusion-input dict built per transaction by
`batch_process_transactions` lines 605-619: an unconditional `local` entry from
`transaction.get('carbon_kg', 0)`, plus an `api_primary` entry when
`transaction.get('api_carbon_kg')` is truthy (present and nonzero). -/
def batch_fusion_inputs (t : TxRecord) : List (String × EstimateEntry) :=
  ("local", ⟨t.carbon_kg.getD 0, 7/10, "Local Calculator", "EPA factors"⟩) ::
  (match t.api_carbon_kg with
   | some v =>
     if v ≠ 0 then
       [("api_primary", ⟨v, t.api_confidence.getD (8/10), t.api_source.getD "API",
                         t.api_methodology.getD "API"⟩)]
     else []
   | none => [])

/-! ### Lemmas: the grouping loop loses nothing and keys every member correctly -/

/-- All index-tagged transactions filed in a group dict, in group order. -/
def groupsFlatten (gs : List (String × List (ℕ × TxRecord))) : List (ℕ × TxRecord) :=
  gs.flatMap (·.2)

theorem groupsFlatten_add (gs : List (String × List (ℕ × TxRecord))) (k : String)
    (p : ℕ × TxRecord) :
    List.Perm (groupsFlatten (addToGroups gs k p)) (groupsFlatten gs ++ [p]) := by
  induction gs with
  | nil => simp [addToGroups, groupsFlatten]
  | cons g rest ih =>
    obtain ⟨k0, l0⟩ := g
    by_cases hk : k0 = k
    · simp only [addToGroups, if_pos hk, groupsFlatten, List.flatMap_cons]
      have h1 : List.Perm (l0 ++ ([p] ++ rest.flatMap (·.2)))
          (l0 ++ (rest.flatMap (·.2) ++ [p])) :=
        List.Perm.append_left l0 List.perm_append_comm
      simpa [List.append_assoc] using h1
    · simp only [addToGroups, if_neg hk, groupsFlatten, List.flatMap_cons]
      have h1 := List.Perm.append_left l0 ih
      simpa [groupsFlatten, List.append_assoc] using h1

theorem groupsFlatten_foldl (l : List (ℕ × TxRecord))
    (gs : List (String × List (ℕ × TxRecord))) :
    List.Perm
      (groupsFlatten (l.foldl (fun gs it => addToGroups gs (txActivityType it.2) it) gs))
      (groupsFlatten gs ++ l) := by
  induction l generalizing gs with
  | nil => simp
  | cons p l ih =>
    simp only [List.foldl_cons]
    have h1 := ih (addToGroups gs (txActivityType p.2) p)
    have h2 := (groupsFlatten_add gs (txActivityType p.2) p).append_right l
    exact h1.trans (by simpa [List.append_assoc] using h2)

theorem groupByActivity_perm (txs : List TxRecord) :
    List.Perm (groupsFlatten (groupByActivity txs)) txs.enum := by
  simpa [groupsFlatten, groupByActivity] using groupsFlatten_foldl txs.enum []

/-- Invariant: every member of a group was filed under its own activity type. -/
def GroupsKeyed (gs : List (String × List (ℕ × TxRecord))) : Prop :=
  ∀ g ∈ gs, ∀ it ∈ g.2, txActivityType it.2 = g.1

theorem addToGroups_keyed (k : String) (p : ℕ × TxRecord) (hk : txActivityType p.2 = k) :
    ∀ gs, GroupsKeyed gs → GroupsKeyed (addToGroups gs k p) := by
  intro gs
  induction gs with
  | nil =>
    intro _ g hg it hit
    simp only [addToGroups, List.mem_singleton] at hg
    subst hg
    simp only [List.mem_singleton] at hit
    subst hit
    exact hk
  | cons g0 rest ih =>
    intro h
    obtain ⟨k0, l0⟩ := g0
    by_cases hkk : k0 = k
    · simp only [addToGroups, if_pos hkk]
      intro g hg it hit
      rcases List.mem_cons.mp hg with rfl | hg
      · rcases List.mem_append.mp hit with hit | hit
        · exact h (k0, l0) (List.mem_cons_self _ _) it hit
        · simp only [List.mem_singleton] at hit
          subst hit
          rw [hk, hkk]
      · exact h g (List.mem_cons_of_mem _ hg) it hit
    · simp only [addToGroups, if_neg hkk]
      intro g hg it hit
      rcases List.mem_cons.mp hg with rfl | hg
      · exact h (k0, l0) (List.mem_cons_self _ _) it hit
      · exact ih (fun g hg => h g (List.mem_cons_of_mem _ hg)) g hg it hit

theorem foldl_preserve {α β : Type} (P : α → Prop) (step : α → β → α) (init : α)
    (l : List β) (h0 : P init) (hstep : ∀ a b, P a → P (step a b)) :
    P (l.foldl step init) := by
  induction l generalizing init with
  | nil => exact h0
  | cons x xs ih => exact ih _ (hstep _ _ h0)

theorem groupByActivity_keyed (txs : List TxRecord) : GroupsKeyed (groupByActivity txs) :=
  foldl_preserve GroupsKeyed _ [] txs.enum
    (fun g hg => absurd hg (List.not_mem_nil g))
    (fun gs it h => addToGroups_keyed (txActivityType it.2) it rfl gs h)

theorem batch_call_log_eq_map (gs : List (String × List (ℕ × TxRecord))) (h : GroupsKeyed gs) :
    gs.flatMap (fun g => g.2.map (fun it => (it.1, g.1)))
      = (groupsFlatten gs).map (fun it => (it.1, txActivityType it.2)) := by
  induction gs with
  | nil => rfl
  | cons g rest ih =>
    simp only [List.flatMap_cons, groupsFlatten, List.map_append]
    have h1 : g.2.map (fun it => (it.1, g.1))
        = g.2.map (fun it => (it.1, txActivityType it.2)) :=
      (List.map_congr_left (fun it hit => by rw [h g (List.mem_cons_self _ _) it hit]))
    rw [h1]
    have h2 := ih (fun g hg => h g (List.mem_cons_of_mem _ hg))
    rw [← groupsFlatten, h2]

/-- The batch path's provider-call log covers every transaction: it is a
permutation of one `get_carbon_estimate` call per input, tagged with the
input's index and activity type. -/
theorem batch_call_log_perm (txs : List TxRecord) :
    List.Perm (batch_call_log txs)
      (txs.enum.map (fun it => (it.1, txActivityType it.2))) := by
  rw [batch_call_log, batch_call_log_eq_map _ (groupByActivity_keyed txs)]
  exact (groupByActivity_perm txs).map _

/-! ### Order restoration in `batch_estimate_transactions` -/

instance : IsTotal (ℕ × TxRecord) (fun a b => a.1 ≤ b.1) :=
  ⟨fun a b => Nat.le_total a.1 b.1⟩

instance : IsTrans (ℕ × TxRecord) (fun a b => a.1 ≤ b.1) :=
  ⟨fun _ _ _ h1 h2 => Nat.le_trans h1 h2⟩

instance : IsAntisymm (ℕ × TxRecord) (fun a b => a.1 < b.1) :=
  ⟨fun _ _ h1 h2 => absurd (Nat.lt_trans h1 h2) (Nat.lt_irrefl _)⟩

theorem batch_estimate_eq_enumMap (api : ℕ → TxRecord → Option ApiEstimate)
    (txs : List TxRecord) :
    batch_estimate_transactions api txs
      = txs.enum.map (fun it => estimateItem api it) := by
  have hproc : (groupByActivity txs).flatMap
        (fun g => g.2.map (fun it => (it.1, estimateItem api it)))
      = (groupsFlatten (groupByActivity txs)).map (fun it => (it.1, estimateItem api it)) := by
    rw [groupsFlatten, List.map_flatMap]
  have hperm : List.Perm
      ((groupByActivity txs).flatMap (fun g => g.2.map (fun it => (it.1, estimateItem api it))))
      (txs.enum.map (fun it => (it.1, estimateItem api it))) := by
    rw [hproc]
    exact (groupByActivity_perm txs).map _
  have hpermSort : List.Perm
      (List.insertionSort (fun a b => a.1 ≤ b.1)
        ((groupByActivity txs).flatMap (fun g => g.2.map (fun it => (it.1, estimateItem api it)))))
      (txs.enum.map (fun it => (it.1, estimateItem api it))) :=
    (List.perm_insertionSort _ _).trans hperm
  have henumlt : List.Pairwise (fun a b : ℕ × TxRecord => a.1 < b.1) txs.enum := by
    have h1 : List.Pairwise (fun a b : ℕ => a < b) (txs.enum.map Prod.fst) := by
      rw [List.enum_map_fst]
      exact List.pairwise_lt_range txs.length
    exact List.pairwise_map.mp h1
  have hcanon : List.Pairwise (fun a b : ℕ × TxRecord => a.1 < b.1)
      (txs.enum.map (fun it => (it.1, estimateItem api it))) :=
    List.pairwise_map.mpr henumlt
  have hnodupKeys :
      ((List.insertionSort (fun a b => a.1 ≤ b.1)
        ((groupByActivity txs).flatMap (fun g => g.2.map (fun it => (it.1, estimateItem api it))))).map
          Prod.fst).Nodup := by
    have hke : ((txs.enum.map (fun it => (it.1, estimateItem api it))).map Prod.fst).Nodup := by
      have : (txs.enum.map (fun it => (it.1, estimateItem api it))).map Prod.fst
          = txs.enum.map Prod.fst := by
        rw [List.map_map]
        rfl
      rw [this, List.enum_map_fst]
      exact List.nodup_range txs.length
    exact (hpermSort.map Prod.fst).symm.nodup hke
  have hsortLe : List.Pairwise (fun a b : ℕ × TxRecord => a.1 ≤ b.1)
      (List.insertionSort (fun a b => a.1 ≤ b.1)
        ((groupByActivity txs).flatMap (fun g => g.2.map (fun it => (it.1, estimateItem api it))))) :=
    List.sorted_insertionSort _ _
  have hsortNe : List.Pairwise (fun a b : ℕ × TxRecord => a.1 ≠ b.1)
      (List.insertionSort (fun a b => a.1 ≤ b.1)
        ((groupByActivity txs).flatMap (fun g => g.2.map (fun it => (it.1, estimateItem api it))))) :=
    List.pairwise_map.mp hnodupKeys
  have hsortLt : List.Pairwise (fun a b : ℕ × TxRecord => a.1 < b.1)
      (List.insertionSort (fun a b => a.1 ≤ b.1)
        ((groupByActivity txs).flatMap (fun g => g.2.map (fun it => (it.1, estimateItem api it))))) :=
    (hsortLe.and hsortNe).imp (fun h => lt_of_le_of_ne h.1 h.2)
  have heq : List.insertionSort (fun a b => a.1 ≤ b.1)
        ((groupByActivity txs).flatMap (fun g => g.2.map (fun it => (it.1, estimateItem api it))))
      = txs.enum.map (fun it => (it.1, estimateItem api it)) :=
    List.eq_of_perm_of_sorted hpermSort hsortLt hcanon
  rw [batch_estimate_transactions, heq, List.map_map]
  rfl

/-- C5: for every input list, every per-item parse and enhancement function
and every per-item provider outcome assignment (covering arbitrary per-item
latency and failure patterns), the batch pipeline returns exactly one output
per input and the i-th output is the processed i-th input — output order
equals input order, reassembled by original index. -/
theorem batch_preserves_input_order (parseItem : TxRecord → TxRecord)
    (api : ℕ → TxRecord → Option ApiEstimate) (enhanceItem : TxRecord → TxRecord)
    (txs : List TxRecord) :
    (batch_process_transactions parseItem api enhanceItem txs).length = txs.length ∧
    ∀ i : ℕ, (batch_process_transactions parseItem api enhanceItem txs).get? i
      = (txs.get? i).map (fun t => enhanceItem (estimateItem api (i, parseItem t))) := by
  rw [batch_process_transactions, batch_estimate_eq_enumMap]
  constructor
  · simp
  · intro i
    rw [List.get?_map, List.get?_map, List.get?_enum, List.get?_map]
    cases txs.get? i <;> rfl

/-! ### C2 — the local estimate is always among the fusion inputs -/

/-- C2: on both the single-transaction path (`_get_multiple_estimates`) and
the batch path, the fusion input dict starts with the mandatory `local` entry
of confidence 0.7, so the contributor set handed to
`_calculate_weighted_estimate` is never empty — for every classification
(including the fallback), every preference setting, every provider outcome
(including all-failing) and every batch record. -/
theorem fusion_inputs_always_contain_local
    (c : Classification) (amount : ℚ) (prefs : Option UserPrefs)
    (outcome : String → Except Unit ApiEstimate) (t : TxRecord) :
    (get_multiple_estimates c amount prefs outcome).head? = some (localEstimateEntry c amount)
    ∧ (localEstimateEntry c amount).1 = "local"
    ∧ (localEstimateEntry c amount).2.confidence = 7/10
    ∧ get_multiple_estimates c amount prefs outcome ≠ []
    ∧ (batch_fusion_inputs t).head?
        = some ("local", ⟨t.carbon_kg.getD 0, 7/10, "Local Calculator", "EPA factors"⟩)
    ∧ batch_fusion_inputs t ≠ [] := by
  refine ⟨rfl, rfl, rfl, ?_, rfl, ?_⟩
  · simp [get_multiple_estimates]
  · simp [batch_fusion_inputs]

/-! ### C3 — the 0.6 confidence gate -/

/-- C3 counterexample input: a parsed batch transaction whose classification
confidence 0.3 is below the 0.6 gate. -/
def lowConfTx : TxRecord :=
  { description := "misc services", amount := 12, ai_category := some "Other",
    ai_subcategory := some "", ai_confidence := some (3/10) }

/-- C3 counterexample: in the batch path
(`CarbonAPIIntegrator.batch_estimate_transactions`) a transaction with
classification confidence 0.3 < 0.6 still generates a `get_carbon_estimate`
call, and that call queries the external providers in priority order (all
four, when none returns an estimate) — contradicting "when confidence is
below 0.6 no provider call is made" for the batch path. -/
theorem batch_path_queries_providers_below_gate :
    lowConfTx.ai_confidence.getD 1 < 3/5
    ∧ batch_call_log [lowConfTx] = [(0, "other")]
    ∧ tryProviders (fun _ => Except.ok none) provider_order = provider_order := by
  refine ⟨by decide, by decide, by decide⟩

/-- C3 (amended): the ≥ 0.6 gate holds on the single-transaction path — below
the threshold no API task is built and fusion proceeds from the local (and
industry) estimates only — but the batch path issues one `get_carbon_estimate`
provider call per transaction unconditionally, regardless of confidence. -/
theorem provider_gate_single_path_batch_unconditional
    (c : Classification) (amount : ℚ) (prefs : Option UserPrefs)
    (outcome : String → Except Unit ApiEstimate)
    (hconf : c.confidence < 3/5) :
    api_tasks c.confidence prefs = []
    ∧ get_multiple_estimates c amount prefs outcome
        = localEstimateEntry c amount :: industryEntries c amount
    ∧ ∀ txs : List TxRecord,
        List.Perm (batch_call_log txs)
          (txs.enum.map (fun it => (it.1, txActivityType it.2))) := by
  have htasks : api_tasks c.confidence prefs = [] := by
    rw [api_tasks.eq_def, if_neg (not_le.mpr hconf)]
  refine ⟨htasks, ?_, fun txs => batch_call_log_perm txs⟩
  rw [get_multiple_estimates, api_entries, htasks]
  rfl

theorem provider_gate_witness :
    (Classification.confidence ⟨"Other", "unclassified", 1/10, "medium", "fallback", none⟩ < 3/5)
    ∧ api_tasks
        (Classification.confidence ⟨"Other", "unclassified", 1/10, "medium", "fallback", none⟩)
        none = [] :=
  ⟨by decide,
   (provider_gate_single_path_batch_unconditional
      ⟨"Other", "unclassified", 1/10, "medium", "fallback", none⟩ 10 none
      (fun _ => Except.error ()) (by decide)).1⟩

/-! ## `ai_transaction_parser.py` — the multi-signal classifier -/

/-- One row of `AITransactionParser.merchant_database`. -/
structure MerchantInfo where
  category : String
  subcategory : String
  carbon_intensity : String
  deriving Repr, DecidableEq

/-- `AITransactionParser.load_merchant_database`, verbatim, in source order. -/
def merchant_database : List (String × MerchantInfo) :=
  [("shell", ⟨"Transportation", "gasoline", "high"⟩),
   ("exxon", ⟨"Transportation", "gasoline", "high"⟩),
   ("chevron", ⟨"Transportation", "gasoline", "high"⟩),
   ("bp", ⟨"Transportation", "gasoline", "high"⟩),
   ("mobil", ⟨"Transportation", "gasoline", "high"⟩),
   ("arco", ⟨"Transportation", "gasoline", "high"⟩),
   ("valero", ⟨"Transportation", "gasoline", "high"⟩),
   ("uber", ⟨"Transportation", "rideshare", "medium"⟩),
   ("lyft", ⟨"Transportation", "rideshare", "medium"⟩),
   ("taxi", ⟨"Transportation", "taxi", "medium"⟩),
   ("metro", ⟨"Transportation", "public_transport", "low"⟩),
   ("mta", ⟨"Transportation", "public_transport", "low"⟩),
   ("bart", ⟨"Transportation", "public_transport", "low"⟩),
   ("amtrak", ⟨"Transportation", "train", "low"⟩),
   ("delta", ⟨"Transportation", "flight", "very_high"⟩),
   ("united", ⟨"Transportation", "flight", "very_high"⟩),
   ("american", ⟨"Transportation", "flight", "very_high"⟩),
   ("southwest", ⟨"Transportation", "flight", "very_high"⟩),
   ("jetblue", ⟨"Transportation", "flight", "very_high"⟩),
   ("pge", ⟨"Energy", "electricity", "medium"⟩),
   ("edison", ⟨"Energy", "electricity", "medium"⟩),
   ("con ed", ⟨"Energy", "electricity", "high"⟩),
   ("duke energy", ⟨"Energy", "electricity", "high"⟩),
   ("national grid", ⟨"Energy", "electricity", "medium"⟩),
   ("xcel energy", ⟨"Energy", "electricity", "medium"⟩),
   ("mcdonalds", ⟨"Food", "fast_food", "high"⟩),
   ("burger king", ⟨"Food", "fast_food", "high"⟩),
   ("kfc", ⟨"Food", "fast_food", "high"⟩),
   ("taco bell", ⟨"Food", "fast_food", "medium"⟩),
   ("subway", ⟨"Food", "fast_food", "medium"⟩),
   ("starbucks", ⟨"Food", "coffee", "medium"⟩),
   ("dunkin", ⟨"Food", "coffee", "medium"⟩),
   ("whole foods", ⟨"Food", "organic_grocery", "low"⟩),
   ("trader joes", ⟨"Food", "grocery", "low"⟩),
   ("safeway", ⟨"Food", "grocery", "medium"⟩),
   ("kroger", ⟨"Food", "grocery", "medium"⟩),
   ("walmart", ⟨"Food", "grocery", "medium"⟩),
   ("amazon", ⟨"Shopping", "online_retail", "medium"⟩),
   ("target", ⟨"Shopping", "retail", "medium"⟩),
   ("costco", ⟨"Shopping", "warehouse", "medium"⟩),
   ("best buy", ⟨"Shopping", "electronics", "high"⟩),
   ("apple store", ⟨"Shopping", "electronics", "high"⟩),
   ("home depot", ⟨"Shopping", "home_improvement", "medium"⟩),
   ("lowes", ⟨"Shopping", "home_improvement", "medium"⟩),
   ("netflix", ⟨"Entertainment", "streaming", "low"⟩),
   ("spotify", ⟨"Entertainment", "streaming", "low"⟩),
   ("amc", ⟨"Entertainment", "movies", "low"⟩),
   ("regal", ⟨"Entertainment", "movies", "low"⟩)]

/-- `AITransactionParser.load_category_keywords`, verbatim, in source order. -/
def category_keywords : List (String × List (String × List String)) :=
  [("Transportation",
    [("fuel", ["gas", "fuel", "gasoline", "diesel", "petrol", "station"]),
     ("rideshare", ["uber", "lyft", "ride", "taxi", "cab"]),
     ("public_transport", ["metro", "mta", "bart", "bus", "transit", "subway"]),
     ("parking", ["parking", "meter", "garage", "lot"]),
     ("automotive", ["auto", "car", "vehicle", "repair", "service", "oil change"]),
     ("flight", ["airline", "flight", "airport", "airways", "air"])]),
   ("Energy",
    [("electricity", ["electric", "power", "utility", "pge", "edison", "energy"]),
     ("gas", ["gas company", "natural gas", "heating"]),
     ("renewable", ["solar", "wind", "renewable", "green energy"])]),
   ("Food",
    [("restaurant", ["restaurant", "cafe", "bistro", "grill", "diner", "eatery"]),
     ("fast_food", ["mcdonalds", "burger", "pizza", "kfc", "taco", "fast"]),
     ("grocery", ["grocery", "market", "supermarket", "food", "safeway", "kroger"]),
     ("coffee", ["coffee", "starbucks", "dunkin", "cafe", "espresso"]),
     ("delivery", ["doordash", "ubereats", "grubhub", "delivery", "takeout"])]),
   ("Shopping",
    [("retail", ["store", "shop", "retail", "mall", "target", "walmart"]),
     ("online", ["amazon", "ebay", "online", "web", "internet"]),
     ("electronics", ["best buy", "apple", "electronics", "computer", "phone"]),
     ("clothing", ["clothing", "apparel", "fashion", "shoes", "dress"]),
     ("home", ["home depot", "lowes", "furniture", "home", "garden"])]),
   ("Entertainment",
    [("streaming", ["netflix", "spotify", "hulu", "disney", "streaming"]),
     ("movies", ["movie", "cinema", "theater", "amc", "regal"]),
     ("gaming", ["game", "gaming", "xbox", "playstation", "steam"]),
     ("sports", ["gym", "fitness", "sport", "recreation", "club"])])]

/-- `AITransactionParser.load_carbon_patterns`, verbatim, in source order. -/
def carbon_intensity_patterns : List (String × List String) :=
  [("very_high", ["flight", "airline", "jet", "plane", "airport"]),
   ("high", ["gas", "fuel", "coal", "beef", "meat", "steak", "burger"]),
   ("medium", ["car", "drive", "restaurant", "retail", "shopping"]),
   ("low", ["bike", "walk", "train", "bus", "vegetarian", "organic", "local"]),
   ("very_low", ["renewable", "solar", "wind", "electric bike", "walking"])]

/-- The `intensity_defaults` table inside `determine_carbon_intensity`. -/
def intensity_defaults : List (String × List (String × String)) :=
  [("Transportation",
    [("fuel", "high"), ("flight", "very_high"), ("rideshare", "medium"),
     ("public_transport", "low"), ("default", "medium")]),
   ("Energy",
    [("electricity", "medium"), ("gas", "high"), ("renewable", "very_low"),
     ("default", "medium")]),
   ("Food",
    [("fast_food", "high"), ("restaurant", "medium"), ("grocery", "medium"),
     ("organic_grocery", "low"), ("default", "medium")]),
   ("Shopping",
    [("electronics", "high"), ("online_retail", "medium"), ("retail", "medium"),
     ("default", "medium")]),
   ("Entertainment",
    [("streaming", "low"), ("movies", "low"), ("default", "low")])]

/-! ### `clean_description` -/

/-- Word character for the `\b` boundary of the regex `\b\d{4,}\b`. -/
def isWordChar (c : Char) : Bool := c.isAlphanum || c = '_'

/-- One pass over the digit/non-digit runs of the original string, removing the
runs that match `\b\d{4,}\b` (at least four digits, word boundaries on both
sides); `prev` is the last character of the previous run of the original
string, as `re.sub` matches against original positions. -/
def scrubDigitRunsGo : Option Char → List (List Char) → List (List Char)
  | _, [] => []
  | prev, g :: gs =>
    let removed :=
      g.all Char.isDigit && decide (4 ≤ g.length) && !g.isEmpty &&
      (match prev with | none => true | some c => !isWordChar c) &&
      (match gs with
       | [] => true
       | h :: _ => match h.head? with | none => true | some c => !isWordChar c)
    (if removed then [] else g) :: scrubDigitRunsGo g.getLast? gs

/-- `re.sub(r'\b\d{4,}\b', '', clean)`. -/
def scrubLongDigitRuns (l : List Char) : List Char :=
  (scrubDigitRunsGo none (l.splitBy (fun a b => a.isDigit == b.isDigit))).flatten

/-- `re.sub(r'#\d+', '', clean)` — a `#` followed by at least one digit is
removed together with the digits (fuel-driven structural recursion; the fuel
is the list length, always sufficient). -/
def scrubHashRuns : ℕ → List Char → List Char
  | 0, l => l
  | _ + 1, [] => []
  | fuel + 1, c :: cs =>
    if c = '#' then
      if (cs.takeWhile Char.isDigit).isEmpty then c :: scrubHashRuns fuel cs
      else scrubHashRuns fuel (cs.dropWhile Char.isDigit)
    else c :: scrubHashRuns fuel cs

/-- `re.sub(r'\s+', ' ', clean)`. -/
def collapseWhitespace (l : List Char) : List Char :=
  (l.splitBy (fun a b => a.isWhitespace == b.isWhitespace)).flatMap
    (fun g => if g.head?.any Char.isWhitespace then [' '] else g)

/-- `re.sub(f'^{p}\\s+', '', clean)` for one prefix word `p`. -/
def stripLeadToken (t : String) (s : String) : String :=
  if listIsPfx t.data s.data then
    match s.data.drop t.data.length with
    | [] => s
    | c :: rest =>
      if c.isWhitespace then String.mk ((c :: rest).dropWhile Char.isWhitespace) else s
  else s

/-- `AITransactionParser.clean_description`: lowercase + strip, remove long
numbers, reference numbers and asterisks, normalize whitespace, strip the
transaction-code prefixes in order, and strip again. -/
def clean_description (description : String) : String :=
  let c0 := stripStr (lowerStr description)
  let c1 := scrubLongDigitRuns c0.data
  let c2 := scrubHashRuns c1.length c1
  let c3 := c2.filter (fun c => c ≠ '*')
  let c4 := collapseWhitespace c3
  let c5 := ["pos", "purchase", "payment", "debit", "credit"].foldl
    (fun s t => stripLeadToken t s) (String.mk c4)
  stripStr c5

/-! ### The four classification signals -/

/-- `AITransactionParser.classify_by_merchant`: the first merchant (in table
order) whose name occurs in the cleaned description, at confidence 0.95. -/
def classify_by_merchant (description : String) : Option Classification :=
  (merchant_database.find? (fun m => strContains description m.1)).map fun m =>
    ⟨m.2.category, m.2.subcategory, 95/100, m.2.carbon_intensity, "known_merchant", none⟩

/-- The entity-extraction capability (spaCy): the `(entity text, label)` pairs
of the parsed doc; the invocation itself may raise.  `none` models the
unavailable model (`self.nlp is None`). -/
def NlpCap : Type := Option (String → Except Unit (List (String × String)))

/-- `AITransactionParser.classify_by_nlp`: lowercased ORG entities are looked
up in the merchant table (first hit wins, confidence 0.85, carrying the first
GPE/LOC entity as location).  NOTE: the source wraps this body in no
try/except, so an exception raised by the capability propagates. -/
def classify_by_nlp (cap : NlpCap) (description : String) :
    Except Unit (Option Classification) :=
  match cap with
  | none => Except.ok none
  | some f =>
    match f description with
    | Except.error e => Except.error e
    | Except.ok ents =>
      let organizations := (ents.filter (fun p => p.2 = "ORG")).map (fun p => lowerStr p.1)
      let locations := (ents.filter (fun p => p.2 = "GPE" ∨ p.2 = "LOC")).map (·.1)
      Except.ok
        ((organizations.find? (fun o => (alookup merchant_database o).isSome)).bind fun o =>
          (alookup merchant_database o).map fun info =>
            ⟨info.category, info.subcategory, 85/100, info.carbon_intensity,
             "nlp_extracted", locations.head?⟩)

/-- The text-classification capability (zero-shot classifier): label/score
pairs; the invocation may raise.  `none` models `self.classifier is None`. -/
def BertCap : Type := Option (String → Except Unit (List (String × ℚ)))

/-- The `category_mapping` of `classify_by_bert` (note `healthcare and
medical` maps to `Healthcare`, a value outside the spec's category enum). -/
def bert_category_mapping : List (String × String) :=
  [("transportation and fuel", "Transportation"),
   ("food and dining", "Food"),
   ("energy and utilities", "Energy"),
   ("shopping and retail", "Shopping"),
   ("entertainment and recreation", "Entertainment"),
   ("healthcare and medical", "Healthcare"),
   ("other services", "Other")]

/-- The `carbon_intensity_map` of `classify_by_bert`. -/
def bert_intensity_map : List (String × String) :=
  [("Transportation", "high"), ("Energy", "medium"), ("Food", "medium"),
   ("Shopping", "medium"), ("Entertainment", "low"), ("Healthcare", "low"),
   ("Other", "low")]

/-- `AITransactionParser.classify_by_bert`: best-scoring label above the 0.5
threshold, mapped into the category system; the whole body is inside
`try/except`, so a raising capability yields no result. -/
def classify_by_bert (cap : BertCap) (description : String) : Option Classification :=
  match cap with
  | none => none
  | some f =>
    match f description with
    | Except.error _ => none
    | Except.ok result =>
      if result.isEmpty then none
      else
        match firstMaxBy (fun p => p.2) result with
        | none => none
        | some best =>
          if best.2 > 1/2 then
            let category := (alookup bert_category_mapping best.1).getD "Other"
            some ⟨category, "bert_classified", best.2,
                  (alookup bert_intensity_map category).getD "medium", "ai_classified", none⟩
          else none

/-- `AITransactionParser.determine_carbon_intensity`: first explicit pattern
hit, then the per-category defaults. -/
def determine_carbon_intensity (description category subcategory : String) : String :=
  match carbon_intensity_patterns.find? (fun ip => ip.2.any (fun pat => strContains description pat)) with
  | some ip => ip.1
  | none =>
    let cat := (alookup intensity_defaults category).getD [("default", "medium")]
    (alookup cat subcategory).getD ((alookup cat "default").getD "medium")

/-- The (category, subcategory, keywords) rows of `category_keywords` in the
nested-loop iteration order of `classify_by_keywords`. -/
def keywordCandidates : List (String × String × List String) :=
  category_keywords.flatMap (fun c => c.2.map (fun s => (c.1, s.1, s.2)))

/-- One iteration of the `classify_by_keywords` scan: count matched keywords,
normalize by pattern-set size, keep the candidate only on a strictly better
score, capping confidence at 0.8. -/
def keywordStep (description : String) (acc : ℚ × Option Classification)
    (cand : String × String × List String) : ℚ × Option Classification :=
  let score : ℚ := ((cand.2.2.filter (fun k => strContains description k)).length : ℚ)
  let normalized : ℚ := if cand.2.2.length = 0 then 0 else score / (cand.2.2.length : ℚ)
  if acc.1 < normalized then
    (normalized,
     some ⟨cand.1, cand.2.1, min normalized (8/10),
           determine_carbon_intensity description cand.1 cand.2.1, "keyword_matched", none⟩)
  else acc

/-- `AITransactionParser.classify_by_keywords`: best normalized keyword score,
returned only above the 0.1 threshold. -/
def classify_by_keywords (description : String) : Option Classification :=
  let r := keywordCandidates.foldl (keywordStep description) (0, none)
  if 1/10 < r.1 then r.2 else none

/-! ### `combine_classifications` -/

/-- The per-category accumulator dict entry of `combine_classifications`. -/
structure CatScore where
  total_weight : ℚ
  subcategories : List (String × ℚ)
  carbon_intensities : List (String × ℚ)
  best_result : Option Classification
  deriving Repr, DecidableEq

/-- The `method_weights` table with its `.get(merchant_type, 0.5)` default. -/
def method_weights (s : String) : ℚ :=
  if s = "known_merchant" then 1
  else if s = "nlp_extracted" then 8/10
  else if s = "ai_classified" then 7/10
  else if s = "keyword_matched" then 6/10
  else if s = "fallback" then 1/10
  else 1/2

/-- Python `d[k] = d.get(k, 0) + v` on an insertion-ordered dict. -/
def alistAdd : List (String × ℚ) → String → ℚ → List (String × ℚ)
  | [], k, v => [(k, v)]
  | (k0, x) :: rest, k, v =>
    if k0 = k then (k0, x + v) :: rest else (k0, x) :: alistAdd rest k v

/-- The fresh `category_scores[category]` value. -/
def emptyCatScore : CatScore := ⟨0, [], [], none⟩

/-- Folding one classification result (with weighted confidence `w`) into a
category's score: accumulate the total weight, the per-subcategory and
per-intensity weights, and the best individual result (replaced when the new
weighted confidence strictly exceeds the stored result's raw confidence,
exactly as in the source). -/
def updateCatScore (r : Classification) (w : ℚ) (cs : CatScore) : CatScore :=
  { total_weight := cs.total_weight + w
    subcategories := alistAdd cs.subcategories r.subcategory w
    carbon_intensities := alistAdd cs.carbon_intensities r.carbon_intensity w
    best_result :=
      match cs.best_result with
      | none => some r
      | some b => if b.confidence < w then some r else some b }

/-- Python dict update-or-append for the `category_scores` dict. -/
def catScoresAdd : List (String × CatScore) → String → (CatScore → CatScore) →
    List (String × CatScore)
  | [], k, f => [(k, f emptyCatScore)]
  | (k0, s) :: rest, k, f =>
    if k0 = k then (k0, f s) :: rest else (k0, s) :: catScoresAdd rest k f

/-- One iteration of the result loop of `combine_classifications`. -/
def combineStep (cs : List (String × CatScore)) (r : Classification) :
    List (String × CatScore) :=
  catScoresAdd cs r.category (updateCatScore r (method_weights r.merchant_type * r.confidence))

/-- The fallback classification of `combine_classifications`. -/
def fallbackClassification : Classification :=
  ⟨"Other", "unclassified", 1/10, "medium", "fallback", none⟩

/-- `AITransactionParser.combine_classifications`: fallback on no valid
result, otherwise accumulate weighted scores per category, pick the
arg-max category, within it the arg-max subcategory and carbon intensity,
confidence `min(total_weight, 1)`.  (The inner `firstMaxBy = none` branch is
unreachable for a nonempty dict; the fallback there is a total-function
artifact of the embedding.) -/
def combine_classifications (results : List (Option Classification)) : Classification :=
  let valid := results.filterMap id
  match valid with
  | [] => fallbackClassification
  | _ :: _ =>
    let scores := valid.foldl combineStep []
    match firstMaxBy (fun g => g.2.total_weight) scores with
    | none => fallbackClassification
    | some best =>
      let bestSub := ((firstMaxBy (fun s => s.2) best.2.subcategories).map (·.1)).getD ""
      let bestInt := ((firstMaxBy (fun s => s.2) best.2.carbon_intensities).map (·.1)).getD ""
      ⟨best.1, bestSub, min best.2.total_weight 1, bestInt, "combined_ai",
       best.2.best_result.bind (·.location)⟩

/-- The two opaque capabilities held by `AITransactionParser`. -/
structure ParserCaps where
  nlp : NlpCap
  classifier : BertCap

/-- `AITransactionParser.parse_transaction`: clean, run the four signals in
order, combine.  An exception from the entity-extraction signal propagates
(no handler in the source); the text-classification signal's handler is inside
`classify_by_bert`. -/
def parse_transaction (caps : ParserCaps) (description : String) :
    Except Unit Classification :=
  let dc := clean_description description
  let merchant_result := classify_by_merchant dc
  match classify_by_nlp caps.nlp dc with
  | Except.error e => Except.error e
  | Except.ok nlp_result =>
    let bert_result := classify_by_bert caps.classifier dc
    let keyword_result := classify_by_keywords dc
    Except.ok (combine_classifications [merchant_result, nlp_result, bert_result, keyword_result])

/-! ### C7 — signal failure semantics -/

/-- C7 counterexample: an exception raised inside the entity-extraction
signal is NOT caught (`classify_by_nlp` wraps the spaCy call in no
try/except), so `parse_transaction` aborts with the exception instead of
returning a Classification. -/
theorem nlp_exception_aborts_classification :
    parse_transaction ⟨some (fun _ => Except.error ()), none⟩ "shell gas station"
      = Except.error () := rfl

/-- C7 (amended): an exception inside the text-classification signal is
caught and treated as "no result" — a raising classifier capability behaves
exactly like an absent one — but an exception inside the entity-extraction
signal propagates and aborts `parse_transaction`. -/
theorem signal_exception_handling
    (nlpCap : NlpCap) (bertCap : BertCap) (description : String) (e : Unit) :
    parse_transaction ⟨nlpCap, some (fun _ => Except.error e)⟩ description
      = parse_transaction ⟨nlpCap, none⟩ description
    ∧ parse_transaction ⟨some (fun _ => Except.error e), bertCap⟩ description
      = Except.error e := by
  constructor
  · simp only [parse_transaction]
    cases classify_by_nlp nlpCap (clean_description description) <;> rfl
  · rfl

/-! ### C9 — the category enumeration -/

/-- The spec's six-value category enumeration. -/
def spec_category_enum : List String :=
  ["Transportation", "Energy", "Food", "Shopping", "Entertainment", "Other"]

/-- The categories the classifier can actually produce: the spec's
enumeration plus `Healthcare`, reachable through `bert_category_mapping`. -/
def producedCategories : List String :=
  ["Transportation", "Energy", "Food", "Shopping", "Entertainment", "Other", "Healthcare"]

theorem alookup_mem {α : Type} (l : List (String × α)) (k : String) (v : α)
    (h : alookup l k = some v) : ∃ m ∈ l, m.2 = v := by
  rw [alookup] at h
  cases hf : l.find? (fun p => p.1 = k) with
  | none => rw [hf] at h; simp at h
  | some m =>
    rw [hf] at h
    simp only [Option.map_some', Option.some.injEq] at h
    exact ⟨m, List.mem_of_find?_eq_some hf, h⟩

theorem classify_by_merchant_category (d : String) (c : Classification)
    (h : classify_by_merchant d = some c) : c.category ∈ producedCategories := by
  rw [classify_by_merchant] at h
  cases hf : merchant_database.find? (fun m => strContains d m.1) with
  | none => rw [hf] at h; simp at h
  | some m =>
    rw [hf] at h
    simp only [Option.map_some', Option.some.injEq] at h
    have hcat : ∀ x ∈ merchant_database, x.2.category ∈ producedCategories := by decide
    subst h
    exact hcat m (List.mem_of_find?_eq_some hf)

theorem classify_by_nlp_category (cap : NlpCap) (d : String) (c : Classification)
    (h : classify_by_nlp cap d = Except.ok (some c)) : c.category ∈ producedCategories := by
  rcases cap with _ | f
  · simp [classify_by_nlp] at h
  · simp only [classify_by_nlp] at h
    cases hf : f d with
    | error e => rw [hf] at h; cases h
    | ok ents =>
      rw [hf] at h
      simp only [Except.ok.injEq] at h
      rw [Option.bind_eq_some] at h
      obtain ⟨o, _, h⟩ := h
      rw [Option.map_eq_some'] at h
      obtain ⟨info, hinfo, h⟩ := h
      obtain ⟨m, hm, hm2⟩ := alookup_mem _ _ _ hinfo
      have hcat : ∀ x ∈ merchant_database, x.2.category ∈ producedCategories := by decide
      subst h
      show info.category ∈ producedCategories
      rw [← hm2]
      exact hcat m hm

theorem classify_by_bert_category (cap : BertCap) (d : String) (c : Classification)
    (h : classify_by_bert cap d = some c) : c.category ∈ producedCategories := by
  rcases cap with _ | f
  · simp [classify_by_bert] at h
  · simp only [classify_by_bert] at h
    split at h
    · cases h
    · split at h
      · cases h
      · split at h
        · cases h
        · rename_i best _
          split at h
          · simp only [Option.some.injEq] at h
            subst h
            show (alookup bert_category_mapping best.1).getD "Other" ∈ producedCategories
            cases hl : alookup bert_category_mapping best.1 with
            | none => decide
            | some v =>
              obtain ⟨m, hm, hm2⟩ := alookup_mem _ _ _ hl
              have hcat : ∀ x ∈ bert_category_mapping, x.2 ∈ producedCategories := by decide
              simp only [Option.getD_some]
              rw [← hm2]
              exact hcat m hm
          · cases h

instance {ε α : Type} [DecidableEq ε] [DecidableEq α] : DecidableEq (Except ε α) := fun a b =>
  match a, b with
  | .error e, .error f =>
    if h : e = f then .isTrue (h ▸ rfl) else .isFalse (fun hh => h (Except.error.inj hh))
  | .ok x, .ok y =>
    if h : x = y then .isTrue (h ▸ rfl) else .isFalse (fun hh => h (Except.ok.inj hh))
  | .error _, .ok _ => .isFalse Except.noConfusion
  | .ok _, .error _ => .isFalse Except.noConfusion

/-- The scan step keeps the accumulator or produces a candidate-built result. -/
theorem keywordStep_snd (d : String) (acc : ℚ × Option Classification)
    (cand : String × String × List String) :
    (keywordStep d acc cand).2 = acc.2 ∨
    ∃ q, (keywordStep d acc cand).2 =
      some ⟨cand.1, cand.2.1, q, determine_carbon_intensity d cand.1 cand.2.1,
            "keyword_matched", none⟩ := by
  rw [keywordStep]
  repeat' split
  all_goals first
    | exact Or.inr ⟨_, rfl⟩
    | exact Or.inl rfl

theorem foldl_preserve_mem {α β : Type} (P : α → Prop) (step : α → β → α) :
    ∀ (l : List β) (init : α), P init → (∀ a, ∀ b ∈ l, P a → P (step a b)) →
    P (l.foldl step init) := by
  intro l
  induction l with
  | nil => intro init h0 _; exact h0
  | cons x xs ih =>
    intro init h0 hstep
    exact ih _ (hstep init x (List.mem_cons_self _ _) h0)
      (fun a b hb ha => hstep a b (List.mem_cons_of_mem _ hb) ha)

theorem classify_by_keywords_category (d : String) (c : Classification)
    (h : classify_by_keywords d = some c) : c.category ∈ producedCategories := by
  have hfold : ∀ c0, (keywordCandidates.foldl (keywordStep d) (0, none)).2 = some c0 →
      c0.category ∈ producedCategories := by
    apply foldl_preserve_mem
      (P := fun acc : ℚ × Option Classification =>
        ∀ c0, acc.2 = some c0 → c0.category ∈ producedCategories)
    · intro c0 h0; exact Option.noConfusion h0
    · intro acc cand hcand hacc c0 hc0
      rcases keywordStep_snd d acc cand with he | ⟨q, he⟩
      · rw [he] at hc0; exact hacc c0 hc0
      · rw [he] at hc0
        have hx := Option.some.inj hc0
        have hall : ∀ x ∈ keywordCandidates, x.1 ∈ producedCategories := by decide
        rw [← hx]
        exact hall cand hcand
  rw [classify_by_keywords] at h
  split at h
  · exact hfold c h
  · simp at h

theorem catScoresAdd_keys (S : String → Prop) (k : String) (f : CatScore → CatScore)
    (hk : S k) : ∀ cs, (∀ g ∈ cs, S g.1) → ∀ g ∈ catScoresAdd cs k f, S g.1 := by
  intro cs
  induction cs with
  | nil =>
    intro _ g hg
    simp only [catScoresAdd, List.mem_singleton] at hg
    subst hg
    exact hk
  | cons g0 rest ih =>
    intro h g hg
    obtain ⟨k0, s⟩ := g0
    by_cases hkk : k0 = k
    · simp only [catScoresAdd, if_pos hkk] at hg
      rcases List.mem_cons.mp hg with rfl | hg
      · exact h (k0, s) (List.mem_cons_self _ _)
      · exact h g (List.mem_cons_of_mem _ hg)
    · simp only [catScoresAdd, if_neg hkk] at hg
      rcases List.mem_cons.mp hg with rfl | hg
      · exact h (k0, s) (List.mem_cons_self _ _)
      · exact ih (fun g hg => h g (List.mem_cons_of_mem _ hg)) g hg

theorem catScoresAdd_ne_nil (cs : List (String × CatScore)) (k : String)
    (f : CatScore → CatScore) : catScoresAdd cs k f ≠ [] := by
  cases cs with
  | nil => simp [catScoresAdd]
  | cons g rest =>
    obtain ⟨k0, s⟩ := g
    by_cases hkk : k0 = k <;> simp [catScoresAdd, hkk]

theorem combine_foldl_ne_nil (l : List Classification) :
    ∀ cs, cs ≠ [] → l.foldl combineStep cs ≠ [] := by
  induction l with
  | nil => intro cs h; exact h
  | cons r rs ih =>
    intro cs _
    exact ih _ (catScoresAdd_ne_nil _ _ _)

theorem combine_classifications_category (results : List (Option Classification))
    (hall : ∀ r ∈ results.filterMap id, r.category ∈ producedCategories) :
    (combine_classifications results).category ∈ producedCategories := by
  rw [combine_classifications]
  cases hv : results.filterMap id with
  | nil => decide
  | cons r rs =>
    rw [hv] at hall
    have hscores : ∀ g ∈ (r :: rs).foldl combineStep [], g.1 ∈ producedCategories := by
      apply foldl_preserve_mem
        (P := fun cs : List (String × CatScore) => ∀ g ∈ cs, g.1 ∈ producedCategories)
      · intro g hg; exact absurd hg (List.not_mem_nil g)
      · intro cs x hx hcs
        exact catScoresAdd_keys _ _ _ (hall x hx) cs hcs
    have hne : (r :: rs).foldl combineStep [] ≠ [] := by
      rw [List.foldl_cons]
      exact combine_foldl_ne_nil rs _ (catScoresAdd_ne_nil _ _ _)
    cases hb : firstMaxBy (fun g : String × CatScore => g.2.total_weight)
        ((r :: rs).foldl combineStep []) with
    | none =>
      exfalso
      obtain ⟨a, as, he⟩ := List.exists_cons_of_ne_nil hne
      rw [he] at hb
      simp [firstMaxBy] at hb
    | some best =>
      have hmem := (firstMaxBy_spec _ _ _ hb).1
      simp only [hb]
      exact hscores best hmem

set_option maxRecDepth 4000 in
/-- C9 counterexample: with the text-classification capability returning
label "healthcare and medical" at score 0.9 on an otherwise unrecognized
description, the classifier returns category `Healthcare`, which is outside
the spec's six-value enumeration. -/
theorem bert_healthcare_escapes_category_enum :
    parse_transaction ⟨none, some (fun _ => Except.ok [("healthcare and medical", 9/10)])⟩ "zzz"
      = Except.ok ⟨"Healthcare", "bert_classified", 63/100, "low", "combined_ai", none⟩
    ∧ "Healthcare" ∉ spec_category_enum := by
  refine ⟨by decide, by decide⟩

/-- C9 (amended): every Classification the classifier returns has its
category in the spec's enumeration extended with `Healthcare` (reachable
through the text-classification label mapping), and when no signal fired the
result is the fallback classification, whose category is `Other`. -/
theorem parse_category_enum_extended (caps : ParserCaps) (description : String) :
    (∀ c, parse_transaction caps description = Except.ok c →
        c.category ∈ producedCategories)
    ∧ combine_classifications [none, none, none, none] = fallbackClassification
    ∧ fallbackClassification.category = "Other" := by
  refine ⟨?_, rfl, rfl⟩
  intro c h
  simp only [parse_transaction] at h
  cases hn : classify_by_nlp caps.nlp (clean_description description) with
  | error e => rw [hn] at h; cases h
  | ok nr =>
    rw [hn] at h
    simp only [Except.ok.injEq] at h
    subst h
    apply combine_classifications_category
    intro r hr
    rw [List.mem_filterMap] at hr
    obtain ⟨o, ho, hoo⟩ := hr
    simp only [id_eq] at hoo
    subst hoo
    simp only [List.mem_cons, List.not_mem_nil, or_false] at ho
    rcases ho with ho | ho | ho | ho
    · exact classify_by_merchant_category _ r ho.symm
    · rw [← ho] at hn
      exact classify_by_nlp_category caps.nlp _ r hn
    · exact classify_by_bert_category caps.classifier _ r ho.symm
    · exact classify_by_keywords_category _ r ho.symm

set_option maxRecDepth 4000 in
theorem parse_category_enum_extended_witness :
    parse_transaction ⟨none, none⟩ "netflix"
        = Except.ok ⟨"Entertainment", "streaming", 1, "low", "combined_ai", none⟩
    ∧ ("Entertainment" : String) ∈ producedCategories :=
  ⟨by decide,
   (parse_category_enum_extended ⟨none, none⟩ "netflix").1
     ⟨"Entertainment", "streaming", 1, "low", "combined_ai", none⟩ (by decide)⟩

/-! ## `EnhancedCarbonCalculator.process_transaction` — the single-transaction path -/

/-- The enriched-transaction record returned by
`EnhancedCarbonCalculator.process_transaction` (lines 52-79).  The `insights`
and `environmental_impact` sub-dicts are deterministic functions of the fields
below; two representative derived values are kept (`carbon_per_dollar` from
`_categorize_carbon_intensity`, `equivalent_car_miles` from
`_generate_comparison_metrics`). -/
structure EnrichedTx where
  description : String
  amount : ℚ
  date : String
  ai_category : String
  ai_subcategory : String
  ai_confidence : ℚ
  ai_carbon_intensity : String
  ai_merchant_type : String
  ai_location : Option String
  final_carbon_kg : ℚ
  final_confidence : ℚ
  calculation_method : String
  carbon_per_dollar : ℚ
  equivalent_car_miles : ℚ
  processed_at : String
  processing_version : String
  deriving Repr, DecidableEq

/-- `EnhancedCarbonCalculator.process_transaction`: parse (an exception from
the entity-extraction signal propagates), gather estimates, fuse, derive
insights, stamp the processing timestamp.  The clock reading `now` is an
explicit parameter; the source reads `datetime.now()` for the default date
and for `processed_at`. -/
def process_transaction (caps : ParserCaps) (prefs : Option UserPrefs)
    (outcome : String → Except Unit ApiEstimate) (description : String) (amount : ℚ)
    (date : Option String) (now : String) : Except Unit EnrichedTx :=
  match parse_transaction caps description with
  | Except.error e => Except.error e
  | Except.ok c =>
    let finalE := calculate_weighted_estimate (get_multiple_estimates c amount prefs outcome)
    Except.ok
      { description := description
        amount := amount
        date := date.getD now
        ai_category := c.category
        ai_subcategory := c.subcategory
        ai_confidence := c.confidence
        ai_carbon_intensity := c.carbon_intensity
        ai_merchant_type := c.merchant_type
        ai_location := c.location
        final_carbon_kg := finalE.carbon_kg
        final_confidence := finalE.confidence
        calculation_method := finalE.method
        carbon_per_dollar := finalE.carbon_kg / max amount 1
        equivalent_car_miles := finalE.carbon_kg / (404/1000)
        processed_at := now
        processing_version := "2.0" }

/-- One iteration of `AITransactionParser.batch_parse_transactions`: parse the
description and attach the `ai_*` keys.  (The source loop has no handler; an
exception would abort the whole batch, so this function is only instantiated
with exception-free capabilities, where the error branch is unreachable.) -/
def parse_item_pure (caps : ParserCaps) (t : TxRecord) : TxRecord :=
  match parse_transaction caps t.description with
  | Except.ok c =>
    { t with ai_category := some c.category, ai_subcategory := some c.subcategory,
             ai_confidence := some c.confidence, ai_carbon_intensity := some c.carbon_intensity,
             ai_merchant_type := some c.merchant_type, ai_location := c.location }
  | Except.error _ => t

/-- The per-transaction enhancement loop body of
`EnhancedCarbonCalculator.batch_process_transactions` (lines 592-646): build
the fusion inputs from the parsed/API fields, fuse, attach the final fields
and the processing timestamp. -/
def enhance_batch_item (now : String) (t : TxRecord) : TxRecord :=
  let finalE := calculate_weighted_estimate (batch_fusion_inputs t)
  { t with final_carbon_kg := some finalE.carbon_kg,
           final_confidence := some finalE.confidence,
           calculation_method := some finalE.method,
           processed_at := some now }

/-- The concrete batch pipeline: AI parsing, API batch step, enhancement. -/
def run_batch (caps : ParserCaps) (api : ℕ → TxRecord → Option ApiEstimate)
    (now : String) (txs : List TxRecord) : List TxRecord :=
  batch_process_transactions (parse_item_pure caps) api (enhance_batch_item now) txs

/-! ### C6 — invalid input is not rejected -/

set_option maxRecDepth 4000 in
/-- C6 counterexample: no path rejects invalid input.  The single-transaction
path processes `("", -5)` normally — it returns an enriched record, not an
error: the classification falls back to Other and the local estimate is
clamped to 0 — and in a batch the offending item is returned fully processed,
with no error marker, exactly like its valid sibling. -/
theorem invalid_input_not_rejected :
    process_transaction ⟨none, none⟩ none (fun _ => Except.error ()) "" (-5)
        (some "2024-01-01") "T0"
      = Except.ok ⟨"", -5, "2024-01-01", "Other", "unclassified", 1/10, "medium", "fallback",
                   none, 0, 14/25, "Weighted average (primary: local)", 0, 0, "T0", "2.0"⟩
    ∧ run_batch ⟨none, none⟩ (fun _ _ => none) "T0"
        [{ description := "", amount := -5 }, { description := "netflix subscription", amount := 16 }]
      = [{ description := "", amount := -5, ai_category := some "Other",
           ai_subcategory := some "unclassified", ai_confidence := some (1/10),
           ai_carbon_intensity := some "medium", ai_merchant_type := some "fallback",
           final_carbon_kg := some 0, final_confidence := some (14/25),
           calculation_method := some "Weighted average (primary: local)",
           processed_at := some "T0" },
         { description := "netflix subscription", amount := 16,
           ai_category := some "Entertainment", ai_subcategory := some "streaming",
           ai_confidence := some 1, ai_carbon_intensity := some "low",
           ai_merchant_type := some "combined_ai",
           final_carbon_kg := some 0, final_confidence := some (14/25),
           calculation_method := some "Weighted average (primary: local)",
           processed_at := some "T0" }] := by
  refine ⟨by decide, by decide⟩

/-- C6 (amended): the pipeline performs no input validation and knows no
`InvalidInput` error.  For every description (including the empty string) and
every amount (including negative ones), the single-transaction path returns an
enriched result whenever the entity-extraction capability is absent (the only
exception source), and the batch path returns exactly one unmarked record per
input — invalid items included. -/
theorem no_input_validation (bert : BertCap) (prefs : Option UserPrefs)
    (outcome : String → Except Unit ApiEstimate) (description : String) (amount : ℚ)
    (date : Option String) (now : String)
    (caps : ParserCaps) (api : ℕ → TxRecord → Option ApiEstimate) (txs : List TxRecord) :
    (process_transaction ⟨none, bert⟩ prefs outcome description amount date now).isOk = true
    ∧ (run_batch caps api now txs).length = txs.length := by
  constructor
  · rfl
  · rw [run_batch, batch_process_transactions, batch_estimate_eq_enumMap]
    simp

/-! ### C8 — determinism up to the processing timestamp -/

set_option maxRecDepth 8000 in
/-- C8 counterexample: calling the pipeline twice on the identical input is
not bit-identical — the output embeds the `processed_at = datetime.now()`
stamp, which differs between the two calls. -/
theorem identical_input_outputs_differ_between_calls :
    process_transaction ⟨none, none⟩ none (fun _ => Except.error ()) "netflix" 16
        (some "2024-01-01") "T1"
      ≠ process_transaction ⟨none, none⟩ none (fun _ => Except.error ()) "netflix" 16
        (some "2024-01-01") "T2" := by
  decide

/-- C8 (amended): the pipeline is a deterministic function of its input plus
the clock reading: with the date supplied, two runs at different clock
readings agree on every field except the `processed_at` stamp, and two runs
at the same clock reading are bit-identical (the pipeline is a pure function
of (input, clock) in this embedding — fixed tables, capability outcomes held
fixed). -/
theorem deterministic_up_to_timestamp (caps : ParserCaps) (prefs : Option UserPrefs)
    (outcome : String → Except Unit ApiEstimate) (description : String) (amount : ℚ)
    (d : String) (t1 t2 : String) :
    (process_transaction caps prefs outcome description amount (some d) t1).map
        (fun e => { e with processed_at := "" })
      = (process_transaction caps prefs outcome description amount (some d) t2).map
        (fun e => { e with processed_at := "" }) := by
  simp only [process_transaction]
  cases parse_transaction caps description <;> rfl

end GreenScore
